import Mathlib

/-!
# Verification of the EfficientNet backbone and the checkpoint deploy script

This file is a shallow embedding, in Lean 4, of the two Python source files of the
repository:

* `detectron2/modeling/backbone/efficientnet.py` — the `MBConvBlock` module and the
  `EfficientNet` backbone (construction, `extract_features`, `forward`, `freeze`,
  `from_name`, `from_pretrained`, `get_image_size`, `_check_model_name_is_valid`);
* `tools/model_deploy.py` — the checkpoint-deploy transformation.

Tensor computation is abstracted: an activation is represented by a tag recording which
layer produced it (`Activation`), and a block's forward pass is embedded as a map on a
free term algebra of tensor operations (`Tensor`), so that which operations were applied,
and in which order, is fully observable while the numeric contents of tensors are not.
Python dictionaries are embedded as association lists whose keys are `PyKey` (a string or
an integer), with Python's cross-type equality (a string never equals an integer);
Python floats are embedded as exact rationals.

The helper module `efficientnet_utils` is not part of the repository sources, so the
functions taken from it (`round_filters`, `round_repeats`, `efficientnet_params`,
`get_model_params`) are modelled from the specification; each such definition carries a
doc comment saying so. Everything else is translated from the Python source.
-/

/-- A Python dictionary key: either a string or a (nonnegative) integer. Python's `==`
across the two types is always `False`, which is exactly the derived equality of this
inductive: `PyKey.str s == PyKey.int n` is `false`. -/
inductive PyKey where
  | str : String → PyKey
  | int : ℕ → PyKey
deriving DecidableEq, Repr, BEq

/-- Python `d[k]` on a dict embedded as an association list: the first entry whose key
equals `k`, or a `KeyError`. -/
def pyDictGet {α : Type} (d : List (PyKey × α)) (k : PyKey) : Except String α :=
  match d.find? (fun p => p.1 == k) with
  | some p => Except.ok p.2
  | none => Except.error "KeyError"

/-- Python `d[k] = v`: overwrite in place if the key is present (Python dicts keep the
original position of an updated key), otherwise append at the end (Python dicts keep
insertion order). -/
def pyDictInsert {α : Type} (d : List (PyKey × α)) (k : PyKey) (v : α) : List (PyKey × α) :=
  if (d.find? (fun p => p.1 == k)).isSome then
    d.map (fun p => if p.1 == k then (k, v) else p)
  else d ++ [(k, v)]

/-- Python `k in d` for a dict embedded as an association list. -/
def pyDictContains {α : Type} (d : List (PyKey × α)) (k : PyKey) : Bool :=
  (d.find? (fun p => p.1 == k)).isSome

/-- Python `x in xs` where `xs` is a list of strings and `x` an arbitrary key: an
integer is equal to no string, so only string keys can be members. -/
def pyStrListContains (xs : List String) : PyKey → Bool
  | PyKey.str s => xs.contains s
  | PyKey.int _ => false

/-- `BlockArgs`: the per-stage architecture record (`efficientnet.py` reads the fields
`kernel_size`, `num_repeat`, `input_filters`, `output_filters`, `expand_ratio`,
`id_skip`, `stride`, `se_ratio` of the namedtuple). -/
structure BlockArgs where
  kernel_size : ℕ
  num_repeat : ℕ
  input_filters : ℕ
  output_filters : ℕ
  expand_ratio : ℕ
  id_skip : Bool
  stride : ℕ
  se_ratio : Option ℚ
deriving DecidableEq, Repr

/-- `GlobalParams`: the global architecture record (`efficientnet.py` reads
`batch_norm_momentum`, `batch_norm_epsilon`, `image_size`, `dropout_rate`,
`num_classes`, `drop_connect_rate`, and the scaling functions read the two
coefficients). -/
structure GlobalParams where
  width_coefficient : Option ℚ
  depth_coefficient : Option ℚ
  image_size : Option ℕ
  dropout_rate : ℚ
  num_classes : ℕ
  batch_norm_momentum : ℚ
  batch_norm_epsilon : ℚ
  drop_connect_rate : ℚ
deriving DecidableEq, Repr

/-- Modelled from the spec: `round_filters` (from `efficientnet_utils`, which is not
under the repository sources) "multiplies base channel count by the width multiplier,
rounds to the nearest multiple of 8 (a fixed divisor), with a floor ensuring rounding
never reduces the count by more than 10%; returns an integer ≥ 1"; a missing width
multiplier leaves the count unchanged. The rational arithmetic is carried out exactly on
the numerator and denominator: with `scaled = num / den`, the nearest multiple of 8 is
`8 * ⌊(num + 4 den) / (8 den)⌋`, and the 10% guard `rounded < 9/10 * scaled` is
`10 * rounded * den < 9 * num`. -/
def round_filters (filters : ℕ) (gp : GlobalParams) : ℕ :=
  match gp.width_coefficient with
  | none => filters
  | some w =>
    let num : ℤ := w.num * filters
    let den : ℤ := (w.den : ℤ)
    let rounded : ℤ := 8 * ((num + 4 * den).fdiv (8 * den))
    let adjusted : ℤ := if 10 * rounded * den < 9 * num then rounded + 8 else rounded
    max 1 adjusted.toNat

/-- Modelled from the spec: `round_repeats` (from `efficientnet_utils`, not under the
repository sources) "returns `ceil(depth_multiplier * base_repeats)`, minimum 1"; a
missing depth multiplier leaves the count unchanged. With the multiplier `num / den`,
`⌈(num * repeats) / den⌉ = -⌊-(num * repeats) / den⌋`, computed by `Int.fdiv`. -/
def round_repeats (repeats : ℕ) (gp : GlobalParams) : ℕ :=
  match gp.depth_coefficient with
  | none => repeats
  | some d => max 1 (-((-(d.num * repeats)).fdiv (d.den : ℤ))).toNat

/-- `valid_models` from `_check_model_name_is_valid`:
`['efficientnet-b'+str(i) for i in range(9)]`. -/
def valid_models : List String :=
  (List.range 9).map (fun i => "efficientnet-b" ++ toString i)

/-- The message of the `ValueError` raised by `_check_model_name_is_valid`:
`'model_name should be one of: ' + ', '.join(valid_models)`. -/
def invalid_model_name_message : String :=
  "model_name should be one of: " ++ String.intercalate ", " valid_models

/-- `EfficientNet._check_model_name_is_valid`: raises a `ValueError` listing the valid
identifiers unless the name is one of the nine `efficientnet-b0` … `efficientnet-b8`. -/
def check_model_name_is_valid (model_name : String) : Except String Unit :=
  if valid_models.contains model_name then Except.ok ()
  else Except.error invalid_model_name_message

/-- Modelled from the spec: the per-variant lookup table of `efficientnet_params`
(from `efficientnet_utils`, not under the repository sources): "a fixed table maps
variant identifiers to (width_mult, depth_mult, input_resolution, dropout_rate);
unknown identifiers fail". The coefficients are the canonical EfficientNet values. -/
def efficientnet_params (model_name : String) : Except String (ℚ × ℚ × ℕ × ℚ) :=
  if model_name = "efficientnet-b0" then Except.ok (1, 1, 224, mkRat 1 5)
  else if model_name = "efficientnet-b1" then Except.ok (1, mkRat 11 10, 240, mkRat 1 5)
  else if model_name = "efficientnet-b2" then Except.ok (mkRat 11 10, mkRat 6 5, 260, mkRat 3 10)
  else if model_name = "efficientnet-b3" then Except.ok (mkRat 6 5, mkRat 7 5, 300, mkRat 3 10)
  else if model_name = "efficientnet-b4" then Except.ok (mkRat 7 5, mkRat 9 5, 380, mkRat 2 5)
  else if model_name = "efficientnet-b5" then Except.ok (mkRat 8 5, mkRat 11 5, 456, mkRat 2 5)
  else if model_name = "efficientnet-b6" then Except.ok (mkRat 9 5, mkRat 13 5, 528, mkRat 1 2)
  else if model_name = "efficientnet-b7" then Except.ok (2, mkRat 31 10, 600, mkRat 1 2)
  else if model_name = "efficientnet-b8" then Except.ok (mkRat 11 5, mkRat 18 5, 672, mkRat 1 2)
  else Except.error "NotImplementedError"

/-- Modelled from the spec: the nominal (unscaled) list of `BlockArgs`, one per stage,
shared by every variant; the canonical seven-stage EfficientNet table (each stage has a
squeeze-excite ratio of 1/4 and the skip flag set). -/
def nominal_blocks_args : List BlockArgs :=
  [ ⟨3, 1, 32, 16, 1, true, 1, some (mkRat 1 4)⟩,
    ⟨3, 2, 16, 24, 6, true, 2, some (mkRat 1 4)⟩,
    ⟨5, 2, 24, 40, 6, true, 2, some (mkRat 1 4)⟩,
    ⟨3, 3, 40, 80, 6, true, 2, some (mkRat 1 4)⟩,
    ⟨5, 3, 80, 112, 6, true, 1, some (mkRat 1 4)⟩,
    ⟨5, 4, 112, 192, 6, true, 2, some (mkRat 1 4)⟩,
    ⟨3, 1, 192, 320, 6, true, 1, some (mkRat 1 4)⟩ ]

/-- Modelled from the spec: `get_model_params` (from `efficientnet_utils`, not under the
repository sources) resolves the variant's coefficients via the lookup table, overridden
field-by-field by caller-supplied overrides, and returns the nominal block list plus the
`GlobalParams`. Only the `num_classes` override is modelled — it is the only override the
repository source passes. -/
def get_model_params (model_name : String) (override_num_classes : Option ℕ) :
    Except String (List BlockArgs × GlobalParams) :=
  match efficientnet_params model_name with
  | Except.error e => Except.error e
  | Except.ok (w, d, res, p) =>
    Except.ok (nominal_blocks_args,
      { width_coefficient := some w
        depth_coefficient := some d
        image_size := some res
        dropout_rate := p
        num_classes := override_num_classes.getD 1000
        batch_norm_momentum := mkRat 99 100
        batch_norm_epsilon := mkRat 1 1000
        drop_connect_rate := mkRat 1 5 })

/-- The free term algebra of tensor operations appearing in `MBConvBlock.forward`; a
value records exactly which operations were applied to the block input and in which
order. `expandConvBnSwish t` stands for `swish(bn0(expand_conv(t)))`,
`depthwiseBnSwish t` for `swish(bn1(depthwise_conv(t)))`, `seGate t` for
`sigmoid(se_expand(swish(se_reduce(avg_pool(t))))) * t`, `projectBn t` for
`bn2(project_conv(t))`, `dropConnect p training t` for `drop_connect(t, p, training)`,
and `add x y` for `x + y`. -/
inductive Tensor where
  | input : Tensor
  | expandConvBnSwish : Tensor → Tensor
  | depthwiseBnSwish : Tensor → Tensor
  | seGate : Tensor → Tensor
  | projectBn : Tensor → Tensor
  | dropConnect : ℚ → Bool → Tensor → Tensor
  | add : Tensor → Tensor → Tensor
deriving DecidableEq, Repr

/-- The attributes of an `MBConvBlock` computed by `MBConvBlock.__init__` that the
claims depend on. `training` is the module's training-mode flag (`nn.Module` defaults it
to `True`). -/
structure MBConvBlock where
  block_args : BlockArgs
  bn_mom : ℚ
  bn_eps : ℚ
  has_se : Bool
  id_skip : Bool
  num_squeezed_channels : Option ℕ
  training : Bool
deriving DecidableEq, Repr

/-- `MBConvBlock.__init__`: `has_se = (se_ratio is not None) and (0 < se_ratio <= 1)`;
when the squeeze-excite layers are built,
`num_squeezed_channels = max(1, int(input_filters * se_ratio))` (the product is
nonnegative there, so Python's `int` truncation is the floor). -/
def MBConvBlock.init (ba : BlockArgs) (gp : GlobalParams) : MBConvBlock :=
  let has_se : Bool := match ba.se_ratio with
    | some r => decide (0 < r) && decide (r ≤ 1)
    | none => false
  { block_args := ba
    bn_mom := 1 - gp.batch_norm_momentum
    bn_eps := gp.batch_norm_epsilon
    has_se := has_se
    id_skip := ba.id_skip
    num_squeezed_channels :=
      if has_se then
        match ba.se_ratio with
        | some r => some (max 1 (Int.toNat ⌊(ba.input_filters : ℚ) * r⌋))
        | none => none
      else none
    training := true }

/-- `MBConvBlock.forward`, on the free term algebra: expansion (only when
`expand_ratio != 1`), depthwise convolution, squeeze-excite (only when `has_se`),
projection, and then — iff `id_skip` is set, the stride is 1 and the input and output
filter counts agree — drop-connect (only at a truthy rate) followed by the residual
addition of the block input. -/
def MBConvBlock.forward (blk : MBConvBlock) (inputs : Tensor)
    (drop_connect_rate : ℚ) : Tensor :=
  let x := inputs
  let x := if blk.block_args.expand_ratio ≠ 1 then Tensor.expandConvBnSwish inputs else x
  let x := Tensor.depthwiseBnSwish x
  let x := if blk.has_se then Tensor.seGate x else x
  let x := Tensor.projectBn x
  if blk.id_skip && (blk.block_args.stride == 1)
      && (blk.block_args.input_filters == blk.block_args.output_filters) then
    let x := if drop_connect_rate ≠ 0 then
        Tensor.dropConnect drop_connect_rate blk.training x
      else x
    Tensor.add x inputs
  else x

/-- The per-stage block construction from `EfficientNet.__init__`: scale the stage's
filter and repeat counts, build a first block with the scaled args, then — after
replacing `input_filters` by `output_filters` and forcing `stride` to 1 when the scaled
repeat count exceeds 1 — build `num_repeat - 1` further blocks. -/
def buildStage (ba : BlockArgs) (gp : GlobalParams) : List MBConvBlock :=
  let scaled : BlockArgs := { ba with
    input_filters := round_filters ba.input_filters gp
    output_filters := round_filters ba.output_filters gp
    num_repeat := round_repeats ba.num_repeat gp }
  let rest : BlockArgs :=
    if scaled.num_repeat > 1 then
      { scaled with input_filters := scaled.output_filters, stride := 1 }
    else scaled
  MBConvBlock.init scaled gp ::
    List.replicate (scaled.num_repeat - 1) (MBConvBlock.init rest gp)

/-- `self._blocks`: the concatenation of the per-stage block lists. -/
def buildBlocks (blocks_args : List BlockArgs) (gp : GlobalParams) : List MBConvBlock :=
  blocks_args.flatMap (fun ba => buildStage ba gp)

/-- `block_indices = [0, 1, 2, 4, 6]` — the stages whose last block feeds the FPN. -/
def blockIndices : List ℕ := [0, 1, 2, 4, 6]

/-- `round_reps`: the scaled repeat count of every stage. -/
def roundReps (blocks_args : List BlockArgs) (gp : GlobalParams) : List ℕ :=
  blocks_args.map (fun b => round_repeats b.num_repeat gp)

/-- `block_end_indices`: entry `i` is `sum(round_reps[:i+1]) - 1`, the index of the last
block of stage `i`. -/
def blockEndIndices (blocks_args : List BlockArgs) (gp : GlobalParams) : List ℕ :=
  (List.range blocks_args.length).map
    (fun i => ((roundReps blocks_args gp).take (i + 1)).sum - 1)

/-- `self._out_feature_indices`: the dict mapping the string key `'res'+str(i+1)` to
`block_end_indices[block_indices[i]]` for `i` in `range(5)`. (Construction requires at
least 7 stages, which `EfficientNet.init` checks; the `getD` defaults are never reached
there.) -/
def outFeatureIndicesDict (blocks_args : List BlockArgs) (gp : GlobalParams) :
    List (PyKey × ℕ) :=
  (List.range 5).map (fun i =>
    (PyKey.str ("res" ++ toString (i + 1)),
     (blockEndIndices blocks_args gp).getD (blockIndices.getD i 0) 0))

/-- `self._out_indices_to_feature = {v: k for k, v in self._out_feature_indices.items()}`:
dict inversion by iterated insertion (later entries overwrite earlier on a duplicate),
with the integer values becoming integer keys. -/
def invertDict (d : List (PyKey × ℕ)) : List (PyKey × PyKey) :=
  d.foldl (fun acc p => pyDictInsert acc (PyKey.int p.2) p.1) []

/-- The block index recorded in `_out_feature_indices` for feature `res-k` (`k` in
1..5): the index of the last block of stage `block_indices[k-1]`. -/
def resBoundaryIndex (blocks_args : List BlockArgs) (gp : GlobalParams) (k : ℕ) : ℕ :=
  (blockEndIndices blocks_args gp).getD (blockIndices.getD (k - 1) 0) 0

/-- The index of the first block of stage `s` (stages indexed from 0 in the nominal
list): the sum of the scaled repeat counts of the stages before `s`. -/
def stageFirstBlockIndex (blocks_args : List BlockArgs) (gp : GlobalParams) (s : ℕ) : ℕ :=
  ((roundReps blocks_args gp).take s).sum

/-- The index of the first block of the stage that produces feature `res-k`. -/
def resStageFirstBlockIndex (blocks_args : List BlockArgs) (gp : GlobalParams) (k : ℕ) : ℕ :=
  stageFirstBlockIndex blocks_args gp (blockIndices.getD (k - 1) 0)

/-- An activation tag: which layer of the backbone produced the tensor. `block idx` is
the activation after `self._blocks[idx]`, `head` the activation after the head
convolution, `linear` the classification logits of `forward`. -/
inductive Activation where
  | stem : Activation
  | block : ℕ → Activation
  | head : Activation
  | linear : Activation
deriving DecidableEq, Repr

/-- The attributes of an `EfficientNet` instance that the claims depend on.
`stemInChannels`/`stemOutChannels` describe the convolution inside `self.stem` — the one
`extract_features` applies to the input; `convStemAttr` is the separate `_conv_stem`
attribute, absent after `__init__` and only ever assigned by `from_pretrained`. -/
structure EfficientNetModel where
  blocksArgs : List BlockArgs
  globalParams : GlobalParams
  stemInChannels : ℕ
  stemOutChannels : ℕ
  blocks : List MBConvBlock
  outFeatureIndices : List (PyKey × ℕ)
  outIndicesToFeature : List (PyKey × PyKey)
  outFeatures : List String
  convStemAttr : Option (ℕ × ℕ)
  headInChannels : ℕ
  headOutChannels : ℕ

/-- `EfficientNet.__init__`: asserts the block list nonempty; the dict comprehension for
`_out_feature_indices` indexes `block_end_indices[block_indices[i]]` for `i` in
`range(5)` and so raises `IndexError` unless there are at least 7 stages. The stem
convolution is built with `in_channels = 3` (rgb) and
`out_channels = round_filters(32, …)`; `out_features` defaults to `['res5']`; the head
convolution takes the final block's output filters to `round_filters(1280, …)`. -/
def EfficientNet.init (blocks_args : List BlockArgs) (gp : GlobalParams)
    (out_features : Option (List String)) : Except String EfficientNetModel :=
  if blocks_args.isEmpty then Except.error "AssertionError"
  else if blocks_args.length < 7 then Except.error "IndexError"
  else
    let fwd := outFeatureIndicesDict blocks_args gp
    Except.ok
      { blocksArgs := blocks_args
        globalParams := gp
        stemInChannels := 3
        stemOutChannels := round_filters 32 gp
        blocks := buildBlocks blocks_args gp
        outFeatureIndices := fwd
        outIndicesToFeature := invertDict fwd
        outFeatures := out_features.getD ["res5"]
        convStemAttr := none
        headInChannels :=
          round_filters ((blocks_args.getLast?.map BlockArgs.output_filters).getD 0) gp
        headOutChannels := round_filters 1280 gp }

/-- `EfficientNet.extract_features`, at the level of activation tags: run the stem
(recording it under `"stem"` when requested), then every block in order; after block
`idx`, when `idx in self._out_indices_to_feature`, execute
`name = self._out_feature_indices[idx]` — a lookup of the integer `idx` in the
string-keyed dict — then record the activation under `name` when
`name in self._out_features`; finally run the head. The drop-connect rate computed for
each block (modelled separately by `dropConnectRateAt`) does not influence which names
are recorded. The result is the head activation together with the `outputs` dict; a
`KeyError` aborts the call. -/
def EfficientNet.extract_features (m : EfficientNetModel) :
    Except String (Activation × List (PyKey × Activation)) :=
  let outputs0 : List (PyKey × Activation) :=
    if m.outFeatures.contains "stem" then
      pyDictInsert [] (PyKey.str "stem") Activation.stem
    else []
  match (List.range m.blocks.length).foldlM
    (fun (outputs : List (PyKey × Activation)) idx =>
      if pyDictContains m.outIndicesToFeature (PyKey.int idx) then
        match pyDictGet m.outFeatureIndices (PyKey.int idx) with
        | Except.error e => Except.error e
        | Except.ok name =>
          if pyStrListContains m.outFeatures (PyKey.int name) then
            Except.ok (pyDictInsert outputs (PyKey.int name) (Activation.block idx))
          else Except.ok outputs
      else Except.ok outputs) outputs0 with
  | Except.error e => Except.error e
  | Except.ok outputs => Except.ok (Activation.head, outputs)

/-- `EfficientNet.forward`: `extract_features`, then pooling, dropout and the final
linear layer; the logits are recorded under `"linear"` when that name is requested. -/
def EfficientNet.forward (m : EfficientNetModel) :
    Except String (List (PyKey × Activation)) :=
  match EfficientNet.extract_features m with
  | Except.error e => Except.error e
  | Except.ok (_, outputs) =>
    Except.ok (if m.outFeatures.contains "linear" then
        pyDictInsert outputs (PyKey.str "linear") Activation.linear
      else outputs)

/-- The trainability (`requires_grad`) state of the backbone's parameters: one flag for
the stem's parameters and one per block (all parameters inside one block are always
frozen together, so a single flag per block loses nothing). -/
structure TrainState where
  stemTrainable : Bool
  blocksTrainable : List Bool
deriving DecidableEq, Repr

/-- `for i in range(bound): for p in self._blocks[i].parameters(): p.requires_grad = False`
on the per-block flags: clear the first `bound` flags. (For the bounds `freeze` uses,
`bound` never exceeds the number of blocks.) -/
def freezeBlocksBelow : ℕ → List Bool → List Bool
  | _, [] => []
  | 0, bs => bs
  | bound + 1, _ :: bs => false :: freezeBlocksBelow bound bs

/-- `EfficientNet.freeze(layer_idx)`: a no-op when `layer_idx == 0`; otherwise freeze
the stem, then look up `self._out_feature_indices['res' + str(layer_idx)]` and freeze
every block strictly before that index. The returned Bool records whether the lookup
raised `KeyError` (for `layer_idx` outside 1..5) — the stem is already frozen when that
happens. -/
def EfficientNet.freeze (m : EfficientNetModel) (layer_idx : ℕ) (st : TrainState) :
    TrainState × Bool :=
  if layer_idx > 0 then
    let st1 : TrainState := { st with stemTrainable := false }
    match pyDictGet m.outFeatureIndices (PyKey.str ("res" ++ toString layer_idx)) with
    | Except.error _ => (st1, true)
    | Except.ok bound =>
      ({ st1 with blocksTrainable := freezeBlocksBelow bound st1.blocksTrainable }, false)
  else (st, false)

/-- The fresh `requires_grad` state of a newly constructed model: every parameter
trainable. -/
def allTrainable (m : EfficientNetModel) : TrainState :=
  { stemTrainable := true, blocksTrainable := List.replicate m.blocks.length true }

/-- `EfficientNet.from_name`: validate the name, resolve the parameters, construct. -/
def EfficientNet.from_name (model_name : String) (override_num_classes : Option ℕ)
    (out_features : Option (List String)) : Except String EfficientNetModel :=
  match check_model_name_is_valid model_name with
  | Except.error e => Except.error e
  | Except.ok _ =>
    match get_model_params model_name override_num_classes with
    | Except.error e => Except.error e
    | Except.ok (ba, gp) => EfficientNet.init ba gp out_features

/-- `EfficientNet.from_pretrained`: `from_name` with the `num_classes` override, then
loading of the pretrained weights (external file IO, no effect on the architecture —
omitted), then, when `in_channels != 3`, the assignment
`model._conv_stem = Conv2d(in_channels, round_filters(32, …), …)` — a write to the
`_conv_stem` attribute, not to `self.stem`. -/
def EfficientNet.from_pretrained (model_name : String) (num_classes : ℕ)
    (in_channels : ℕ) (out_features : Option (List String)) :
    Except String EfficientNetModel :=
  match EfficientNet.from_name model_name (some num_classes) out_features with
  | Except.error e => Except.error e
  | Except.ok m =>
    if in_channels ≠ 3 then
      Except.ok { m with
        convStemAttr := some (in_channels, round_filters 32 m.globalParams) }
    else Except.ok m

/-- `EfficientNet.get_image_size`: validate the name, then return the resolution from
the variant table. -/
def EfficientNet.get_image_size (model_name : String) : Except String ℕ :=
  match check_model_name_is_valid model_name with
  | Except.error e => Except.error e
  | Except.ok _ =>
    match efficientnet_params model_name with
    | Except.error e => Except.error e
    | Except.ok (_, _, res, _) => Except.ok res

/-- The drop-connect rate `extract_features` computes for the block at index `idx` of
`numBlocks` (lines 214–216): start from the configured
`self._global_params.drop_connect_rate` and, when that is truthy, multiply by
`float(idx) / len(self._blocks)`. -/
def dropConnectRateAt (gp : GlobalParams) (idx numBlocks : ℕ) : ℚ :=
  let drop_connect_rate := gp.drop_connect_rate
  if drop_connect_rate ≠ 0 then drop_connect_rate * idx / numBlocks
  else drop_connect_rate

/-- Python `d[k]` / `k in d` machinery for the deploy script's checkpoint dicts, whose
keys are plain strings; values stay an arbitrary type. The first entry with the key. -/
def dictFind {V : Type} (k : String) (d : List (String × V)) : Option V :=
  (d.find? (fun p => p.1 == k)).map Prod.snd

/-- Python `d.pop(k)` without a default: remove the first entry holding the key, or
raise `KeyError` when the key is absent. -/
def dictPop {V : Type} (k : String) (d : List (String × V)) :
    Except String (List (String × V)) :=
  if (dictFind k d).isSome then Except.ok (d.eraseP (fun p => p.1 == k))
  else Except.error ("KeyError: " ++ k)

/-- The checkpoint transformation of `tools/model_deploy.py`: pop `'optimizer'`,
`'scheduler'` and `'iteration'` in that order (each raising `KeyError` when absent) and
return what remains, which the script then serializes to the output path. -/
def modelDeploy {V : Type} (d : List (String × V)) :
    Except String (List (String × V)) :=
  match dictPop "optimizer" d with
  | Except.error e => Except.error e
  | Except.ok d1 =>
    match dictPop "scheduler" d1 with
    | Except.error e => Except.error e
    | Except.ok d2 => dictPop "iteration" d2

/-- The `GlobalParams` the modelled `get_model_params` produces for variant
`efficientnet-b0` (width and depth multipliers 1). -/
def b0_global : GlobalParams :=
  { width_coefficient := some 1
    depth_coefficient := some 1
    image_size := some 224
    dropout_rate := mkRat 1 5
    num_classes := 1000
    batch_norm_momentum := mkRat 99 100
    batch_norm_epsilon := mkRat 1 1000
    drop_connect_rate := mkRat 1 5 }

/-- Sanity: the modelled parameter resolution for variant b0. -/
theorem b0_params_eval : get_model_params "efficientnet-b0" none =
    Except.ok (nominal_blocks_args, b0_global) := rfl

/-- Sanity: the scaled repeat counts of the b0 stages. -/
theorem b0_roundReps_eval : roundReps nominal_blocks_args b0_global =
    [1, 2, 2, 3, 3, 4, 1] := rfl

/-- Sanity: the per-stage last-block indices of b0. -/
theorem b0_blockEndIndices_eval : blockEndIndices nominal_blocks_args b0_global =
    [0, 2, 4, 7, 10, 14, 15] := rfl

/-- Sanity: b0 has 16 blocks. -/
theorem b0_num_blocks_eval : (buildBlocks nominal_blocks_args b0_global).length = 16 :=
  rfl

/-- Sanity: the feature-name-to-block-index dict of b0. -/
theorem b0_outFeatureIndices_eval : outFeatureIndicesDict nominal_blocks_args b0_global =
    [(PyKey.str "res1", 0), (PyKey.str "res2", 2), (PyKey.str "res3", 4),
     (PyKey.str "res4", 10), (PyKey.str "res5", 15)] := rfl


/-- C5: for every `MBConvBlock` (as constructed by `__init__` from arbitrary block args
and global params) and every forward call (any input, any drop-connect rate), the output
is a residual addition of the block input if and only if the block's skip-enabled flag
is set, its stride equals 1, and its input channel count equals its output channel
count. -/
theorem mbconv_residual_iff (ba : BlockArgs) (gp : GlobalParams) (rate : ℚ) (t : Tensor) :
    (∃ y, MBConvBlock.forward (MBConvBlock.init ba gp) t rate = Tensor.add y t) ↔
      ba.id_skip = true ∧ ba.stride = 1 ∧ ba.input_filters = ba.output_filters := by
  simp only [MBConvBlock.forward, MBConvBlock.init]
  by_cases h : (ba.id_skip && (ba.stride == 1) && (ba.input_filters == ba.output_filters)) = true
  · rw [if_pos h]
    simp only [Bool.and_eq_true, beq_iff_eq] at h
    exact ⟨fun _ => ⟨h.1.1, h.1.2, h.2⟩, fun _ => ⟨_, rfl⟩⟩
  · rw [if_neg h]
    constructor
    · rintro ⟨y, hy⟩
      exact absurd hy (by simp)
    · rintro ⟨h1, h2, h3⟩
      exact absurd (by simp [h1, h2, h3]) h

/-- C8: for every `MBConvBlock`, the squeeze-excite gate is enabled iff the configured
squeeze-excite ratio is present and lies in (0, 1]; when enabled, the number of squeezed
channels is the input channel count times the ratio, truncated (the product is
nonnegative, so Python's `int` truncation is the floor), but never less than 1. -/
theorem mbconv_se_gate (ba : BlockArgs) (gp : GlobalParams) :
    ((MBConvBlock.init ba gp).has_se = true ↔
      ∃ r, ba.se_ratio = some r ∧ 0 < r ∧ r ≤ 1) ∧
    (∀ r, ba.se_ratio = some r → 0 < r → r ≤ 1 →
      ∃ n, (MBConvBlock.init ba gp).num_squeezed_channels = some n ∧
        n = max 1 (Int.toNat ⌊(ba.input_filters : ℚ) * r⌋) ∧ 1 ≤ n) := by
  constructor
  · cases hse : ba.se_ratio with
    | none => simp [MBConvBlock.init, hse]
    | some r => simp [MBConvBlock.init, hse]
  · intro r hr h0 h1
    refine ⟨max 1 (Int.toNat ⌊(ba.input_filters : ℚ) * r⌋), ?_, rfl, le_max_left _ _⟩
    simp [MBConvBlock.init, hr, h0, h1]

/-- Witness for `mbconv_se_gate` at the first b0 stage (input filters 32, ratio 1/4):
the hypotheses hold and the theorem yields the squeezed channel count. -/
theorem mbconv_se_gate_witness :
    (⟨3, 1, 32, 16, 1, true, 1, some (mkRat 1 4)⟩ : BlockArgs).se_ratio =
        some (mkRat 1 4) ∧
    (0 : ℚ) < mkRat 1 4 ∧ mkRat 1 4 ≤ 1 ∧
    ∃ n, (MBConvBlock.init ⟨3, 1, 32, 16, 1, true, 1, some (mkRat 1 4)⟩
        b0_global).num_squeezed_channels = some n ∧
      n = max 1 (Int.toNat ⌊((32 : ℕ) : ℚ) * mkRat 1 4⌋) ∧ 1 ≤ n :=
  ⟨rfl, by decide, by decide,
    (mbconv_se_gate ⟨3, 1, 32, 16, 1, true, 1, some (mkRat 1 4)⟩ b0_global).2
      (mkRat 1 4) rfl (by decide) (by decide)⟩

/-- C1: evaluation of the code at the failing input. For the b0 configuration with
`out_features = ["res5"]`, `extract_features` (and hence `forward`) raises `KeyError`
instead of returning a mapping: at the first feature-boundary block the source executes
`name = self._out_feature_indices[idx]`, looking up the integer block index in the
string-keyed name-to-index dict, and no integer key is present there. -/
theorem extract_features_raises_keyerror :
    ((EfficientNet.from_name "efficientnet-b0" none (some ["res5"])).bind
      (fun m => EfficientNet.extract_features m) = Except.error "KeyError") ∧
    ((EfficientNet.from_name "efficientnet-b0" none (some ["res5"])).bind
      (fun m => EfficientNet.forward m) = Except.error "KeyError") :=
  ⟨rfl, rfl⟩

/-- The loop body of `extract_features` with the lookup the surrounding code intends,
`name = self._out_indices_to_feature[idx]` (the dict built precisely to map a block
index to its feature name, and already used in the guard on the line before): record the
activation under the feature name when that name is requested. Everything else is as in
`EfficientNet.extract_features`. -/
def EfficientNet.extract_features_intended (m : EfficientNetModel) :
    Except String (Activation × List (PyKey × Activation)) :=
  let outputs0 : List (PyKey × Activation) :=
    if m.outFeatures.contains "stem" then
      pyDictInsert [] (PyKey.str "stem") Activation.stem
    else []
  match (List.range m.blocks.length).foldlM
    (fun (outputs : List (PyKey × Activation)) idx =>
      if pyDictContains m.outIndicesToFeature (PyKey.int idx) then
        match pyDictGet m.outIndicesToFeature (PyKey.int idx) with
        | Except.error e => Except.error e
        | Except.ok name =>
          if pyStrListContains m.outFeatures name then
            Except.ok (pyDictInsert outputs name (Activation.block idx))
          else Except.ok outputs
      else Except.ok outputs) outputs0 with
  | Except.error e => Except.error e
  | Except.ok outputs => Except.ok (Activation.head, outputs)

/-- With the intended lookup, the b0 backbone requested with `out_features = ["res5"]`
returns the mapping with exactly the key `"res5"`, holding the activation of the last
block (index 15): the behaviour the claim describes. -/
theorem extract_features_intended_res5 :
    (EfficientNet.from_name "efficientnet-b0" none (some ["res5"])).bind
      (fun m => EfficientNet.extract_features_intended m) =
    Except.ok (Activation.head, [(PyKey.str "res5", Activation.block 15)]) := rfl

/-- C4: evaluation of the code at the failing input. `from_pretrained` with
`in_channels = 1` returns a model whose applied stem convolution (inside `self.stem`,
the one `extract_features` runs) still takes 3 input channels; the rebuilt 1-channel
convolution is stored only in the otherwise-unused `_conv_stem` attribute. -/
theorem from_pretrained_stem_not_rebuilt :
    (EfficientNet.from_pretrained "efficientnet-b0" 1000 1 none).map
      (fun m => (m.stemInChannels, m.convStemAttr)) = Except.ok (3, some (1, 32)) := rfl

set_option maxRecDepth 4096 in
/-- C7: every model-name string outside the nine supported identifiers makes
`_check_model_name_is_valid` — and with it `from_name`, `from_pretrained` and
`get_image_size` — fail with the validation error, whose message lists every valid
identifier; each of the nine valid identifiers passes the validation. -/
theorem model_name_validation :
    (∀ name : String, name ∉ valid_models →
      check_model_name_is_valid name = Except.error invalid_model_name_message ∧
      (∀ oc of, EfficientNet.from_name name oc of =
        Except.error invalid_model_name_message) ∧
      (∀ nc ic of, EfficientNet.from_pretrained name nc ic of =
        Except.error invalid_model_name_message) ∧
      EfficientNet.get_image_size name = Except.error invalid_model_name_message) ∧
    (∀ name ∈ valid_models, check_model_name_is_valid name = Except.ok ()) ∧
    (∀ name ∈ valid_models, List.IsInfix name.toList invalid_model_name_message.toList) := by
  refine ⟨?_, ?_, ?_⟩
  · intro name h
    have hc : check_model_name_is_valid name = Except.error invalid_model_name_message := by
      simp [check_model_name_is_valid, h]
    refine ⟨hc, fun oc of => ?_, fun nc ic of => ?_, ?_⟩
    · simp [EfficientNet.from_name, hc]
    · simp [EfficientNet.from_pretrained, EfficientNet.from_name, hc]
    · simp [EfficientNet.get_image_size, hc]
  · intro name h
    simp [check_model_name_is_valid, h]
  · decide

/-- Witness for `model_name_validation`: the invalid name `"resnet50"` is rejected by
`get_image_size` with the validation message, and the valid name `"efficientnet-b0"`
passes the check. -/
theorem model_name_validation_witness :
    ("resnet50" ∉ valid_models ∧
      EfficientNet.get_image_size "resnet50" = Except.error invalid_model_name_message) ∧
    ("efficientnet-b0" ∈ valid_models ∧
      check_model_name_is_valid "efficientnet-b0" = Except.ok ()) :=
  ⟨⟨by decide, (model_name_validation.1 "resnet50" (by decide)).2.2.2⟩,
   ⟨by decide, model_name_validation.2.1 "efficientnet-b0" (by decide)⟩⟩

/-- C3 counterexample: with the b0 configuration (16 blocks, configured maximum rate
1/5), the rate computed for the last block (depth index 15) is 1/5 · 15/16 = 3/16, not
the configured maximum — the claim's "increasing … to the configured maximum at the
last block" is false at this input. -/
theorem drop_connect_rate_last_block_ne_max :
    dropConnectRateAt b0_global 15 16 ≠ b0_global.drop_connect_rate := by
  norm_num [dropConnectRateAt, b0_global, Rat.mkRat_eq_div]

/-- C3 amended: the rate passed to the block at depth index `idx` is the configured
maximum scaled by `idx / numBlocks`; it is 0 at the first block and strictly increases
with depth, but at the last block it equals `max · (n-1)/n`, strictly below the
configured maximum. -/
theorem drop_connect_rate_formula (gp : GlobalParams) (idx n : ℕ)
    (hn : 0 < n) (hr : 0 < gp.drop_connect_rate) :
    dropConnectRateAt gp idx n = gp.drop_connect_rate * idx / n ∧
    dropConnectRateAt gp 0 n = 0 ∧
    dropConnectRateAt gp idx n < dropConnectRateAt gp (idx + 1) n ∧
    dropConnectRateAt gp (n - 1) n = gp.drop_connect_rate * (n - 1 : ℕ) / n ∧
    dropConnectRateAt gp (n - 1) n < gp.drop_connect_rate := by
  have hne : gp.drop_connect_rate ≠ 0 := ne_of_gt hr
  have hn' : (0 : ℚ) < n := by exact_mod_cast hn
  refine ⟨by simp [dropConnectRateAt, hne], by simp [dropConnectRateAt, hne], ?_, 
    by simp [dropConnectRateAt, hne], ?_⟩
  · simp only [dropConnectRateAt, if_pos hne]
    gcongr
    linarith
  · simp only [dropConnectRateAt, if_pos hne]
    rw [div_lt_iff₀ hn']
    have hlt : ((n - 1 : ℕ) : ℚ) < (n : ℚ) := by
      exact_mod_cast Nat.sub_lt hn Nat.one_pos
    calc gp.drop_connect_rate * ((n - 1 : ℕ) : ℚ)
        < gp.drop_connect_rate * (n : ℚ) := by gcongr
      _ = gp.drop_connect_rate * (n : ℚ) := rfl

/-- Witness for `drop_connect_rate_formula` at the b0 configuration, block index 3 of
16. -/
theorem drop_connect_rate_formula_witness :
    0 < 16 ∧ 0 < b0_global.drop_connect_rate ∧
    (dropConnectRateAt b0_global 3 16 = b0_global.drop_connect_rate * 3 / 16 ∧
     dropConnectRateAt b0_global 0 16 = 0 ∧
     dropConnectRateAt b0_global 3 16 < dropConnectRateAt b0_global (3 + 1) 16 ∧
     dropConnectRateAt b0_global (16 - 1) 16 =
       b0_global.drop_connect_rate * ((16 - 1 : ℕ) : ℚ) / 16 ∧
     dropConnectRateAt b0_global (16 - 1) 16 < b0_global.drop_connect_rate) :=
  ⟨by decide, by decide, drop_connect_rate_formula b0_global 3 16 (by decide) (by decide)⟩

/-- `freezeBlocksBelow` clears exactly the flags at indices below the bound and leaves
later flags untouched. -/
theorem freezeBlocksBelow_get (bound : ℕ) (bs : List Bool) (i : ℕ) :
    (freezeBlocksBelow bound bs)[i]? =
      if i < bound then bs[i]?.map (fun _ => false) else bs[i]? := by
  induction bs generalizing bound i with
  | nil => cases bound <;> simp [freezeBlocksBelow]
  | cons b bs ih =>
    cases bound with
    | zero => simp [freezeBlocksBelow]
    | succ bound =>
      cases i with
      | zero => simp [freezeBlocksBelow]
      | succ i =>
        simpa [freezeBlocksBelow, Nat.succ_lt_succ_iff] using ih bound i

/-- Looking up `'res' + str(k)` (`k` in 1..5) in `_out_feature_indices` returns the
index of the last block of stage `block_indices[k-1]`. -/
theorem pyDictGet_res (blocks_args : List BlockArgs) (gp : GlobalParams) (k : ℕ)
    (h1 : 1 ≤ k) (h5 : k ≤ 5) :
    pyDictGet (outFeatureIndicesDict blocks_args gp) (PyKey.str ("res" ++ toString k)) =
      Except.ok (resBoundaryIndex blocks_args gp k) := by
  interval_cases k <;> rfl

/-- C2 counterexample: in the b0 configuration the stage recorded for `res2` (nominal
stage 1, two blocks) has its first block at index 1, yet `freeze(2)` sets that block's
parameters to non-trainable — contradicting the claim that every parameter from the
stage's first block onward stays trainable. -/
theorem freeze_b0_res2_first_block_frozen :
    resStageFirstBlockIndex nominal_blocks_args b0_global 2 = 1 ∧
    ∃ m, EfficientNet.init nominal_blocks_args b0_global none = Except.ok m ∧
      (EfficientNet.freeze m 2 (allTrainable m)).1.blocksTrainable.get? 1 = some false :=
  ⟨rfl, _, rfl, rfl⟩

/-- C2 amended: `freeze(0)` is a no-op; for `k` in 1..5, `freeze(k)` freezes the stem
and exactly the blocks with index strictly below the `res-k` feature boundary — the
index of the *last* block of stage `block_indices[k-1]` (not the stage's first block) —
leaving every block from that boundary onward, and in particular the boundary block
itself, with its previous trainability. -/
theorem freeze_semantics (blocks_args : List BlockArgs) (gp : GlobalParams)
    (out_features : Option (List String)) (m : EfficientNetModel) (st : TrainState)
    (k : ℕ) (hm : EfficientNet.init blocks_args gp out_features = Except.ok m)
    (h1 : 1 ≤ k) (h5 : k ≤ 5) :
    EfficientNet.freeze m 0 st = (st, false) ∧
    (EfficientNet.freeze m k st).2 = false ∧
    (EfficientNet.freeze m k st).1.stemTrainable = false ∧
    ∀ i, (EfficientNet.freeze m k st).1.blocksTrainable.get? i =
      if i < resBoundaryIndex blocks_args gp k then
        (st.blocksTrainable.get? i).map (fun _ => false)
      else st.blocksTrainable.get? i := by
  have hfwd : m.outFeatureIndices = outFeatureIndicesDict blocks_args gp := by
    unfold EfficientNet.init at hm
    split at hm
    · exact absurd hm (by simp)
    split at hm
    · exact absurd hm (by simp)
    injection hm with hm
    rw [← hm]
  have hk : k > 0 := h1
  have hget := pyDictGet_res blocks_args gp k h1 h5
  refine ⟨by simp [EfficientNet.freeze], ?_, ?_, ?_⟩
  · simp [EfficientNet.freeze, hk, hfwd, hget]
  · simp [EfficientNet.freeze, hk, hfwd, hget]
  · intro i
    simp [EfficientNet.freeze, hk, hfwd, hget, freezeBlocksBelow_get]

/-- Witness for `freeze_semantics`: the b0 model with `k = 2`. -/
theorem freeze_semantics_witness :
    ∃ m, EfficientNet.init nominal_blocks_args b0_global none = Except.ok m ∧
      (EfficientNet.freeze m 0 (allTrainable m) = (allTrainable m, false) ∧
       (EfficientNet.freeze m 2 (allTrainable m)).2 = false ∧
       (EfficientNet.freeze m 2 (allTrainable m)).1.stemTrainable = false ∧
       ∀ i, (EfficientNet.freeze m 2 (allTrainable m)).1.blocksTrainable.get? i =
         if i < resBoundaryIndex nominal_blocks_args b0_global 2 then
           ((allTrainable m).blocksTrainable.get? i).map (fun _ => false)
         else (allTrainable m).blocksTrainable.get? i) :=
  ⟨_, rfl, freeze_semantics nominal_blocks_args b0_global none _ (allTrainable _) 2 rfl
    (by decide) (by decide)⟩

/-- A stage with at least one nominal repeat has at least one scaled repeat. -/
theorem round_repeats_pos (repeats : ℕ) (gp : GlobalParams) (h : 1 ≤ repeats) :
    1 ≤ round_repeats repeats gp := by
  unfold round_repeats
  cases gp.depth_coefficient with
  | none => exact h
  | some d => exact le_max_left _ _

/-- A stage contributes exactly its scaled repeat count of blocks. -/
theorem buildStage_length (ba : BlockArgs) (gp : GlobalParams) (h : 1 ≤ ba.num_repeat) :
    (buildStage ba gp).length = round_repeats ba.num_repeat gp := by
  have h1 : 1 ≤ round_repeats ba.num_repeat gp := round_repeats_pos _ _ h
  simp only [buildStage, List.length_cons, List.length_replicate]
  omega

/-- C9: for every stage of a nominal block-args list (each stage having at least one
nominal repeat), construction instantiates one block with the scaled args and the
stage's specified stride, followed by exactly `scaled_repeat_count - 1` blocks whose
stride is 1 and whose input channel count equals the first block's output channel count;
the total number of blocks is the sum over stages of the scaled repeat counts. -/
theorem build_blocks_structure (blocks_args : List BlockArgs) (gp : GlobalParams)
    (hrep : ∀ ba ∈ blocks_args, 1 ≤ ba.num_repeat) :
    (buildBlocks blocks_args gp).length = (roundReps blocks_args gp).sum ∧
    ∀ ba ∈ blocks_args, ∃ first rest,
      (buildStage ba gp).map MBConvBlock.block_args =
        first :: List.replicate (round_repeats ba.num_repeat gp - 1) rest ∧
      first.stride = ba.stride ∧
      first.input_filters = round_filters ba.input_filters gp ∧
      first.output_filters = round_filters ba.output_filters gp ∧
      first.num_repeat = round_repeats ba.num_repeat gp ∧
      rest.stride = 1 ∧
      rest.input_filters = first.output_filters ∧
      rest.output_filters = first.output_filters := by
  constructor
  · induction blocks_args with
    | nil => simp [buildBlocks, roundReps]
    | cons ba bas ih =>
      have hba : 1 ≤ ba.num_repeat := hrep ba (List.mem_cons_self _ _)
      have ht : ∀ b ∈ bas, 1 ≤ b.num_repeat := fun b hb => hrep b (List.mem_cons_of_mem _ hb)
      simp only [buildBlocks, List.flatMap_cons, List.length_append, roundReps,
        List.map_cons, List.sum_cons] at *
      rw [buildStage_length ba gp hba, ih ht]
  · intro ba hba
    refine ⟨⟨ba.kernel_size, round_repeats ba.num_repeat gp,
        round_filters ba.input_filters gp, round_filters ba.output_filters gp,
        ba.expand_ratio, ba.id_skip, ba.stride, ba.se_ratio⟩,
      ⟨ba.kernel_size, round_repeats ba.num_repeat gp,
        round_filters ba.output_filters gp, round_filters ba.output_filters gp,
        ba.expand_ratio, ba.id_skip, 1, ba.se_ratio⟩,
      ?_, rfl, rfl, rfl, rfl, rfl, rfl, rfl⟩
    by_cases hgt : round_repeats ba.num_repeat gp > 1
    · simp [buildStage, hgt, MBConvBlock.init]
    · have h1 : round_repeats ba.num_repeat gp = 1 :=
        le_antisymm (not_lt.mp hgt) (round_repeats_pos _ _ (hrep ba hba))
      simp [buildStage, h1, MBConvBlock.init]

/-- Witness for `build_blocks_structure`: the b0 configuration; the per-stage clause is
instantiated at the second stage (2 nominal repeats, stride 2, 16 → 24 filters). -/
theorem build_blocks_structure_witness :
    (∀ ba ∈ nominal_blocks_args, 1 ≤ ba.num_repeat) ∧
    (buildBlocks nominal_blocks_args b0_global).length =
      (roundReps nominal_blocks_args b0_global).sum ∧
    (⟨3, 2, 16, 24, 6, true, 2, some (mkRat 1 4)⟩ : BlockArgs) ∈ nominal_blocks_args ∧
    ∃ first rest,
      (buildStage ⟨3, 2, 16, 24, 6, true, 2, some (mkRat 1 4)⟩ b0_global).map
          MBConvBlock.block_args =
        first :: List.replicate
          (round_repeats (⟨3, 2, 16, 24, 6, true, 2, some (mkRat 1 4)⟩ : BlockArgs).num_repeat
            b0_global - 1) rest ∧
      first.stride = (⟨3, 2, 16, 24, 6, true, 2, some (mkRat 1 4)⟩ : BlockArgs).stride ∧
      first.input_filters = round_filters 16 b0_global ∧
      first.output_filters = round_filters 24 b0_global ∧
      first.num_repeat = round_repeats 2 b0_global ∧
      rest.stride = 1 ∧
      rest.input_filters = first.output_filters ∧
      rest.output_filters = first.output_filters :=
  ⟨by decide,
   (build_blocks_structure nominal_blocks_args b0_global (by decide)).1,
   by decide,
   (build_blocks_structure nominal_blocks_args b0_global (by decide)).2
     ⟨3, 2, 16, 24, 6, true, 2, some (mkRat 1 4)⟩ (by decide)⟩


/-- `dictFind` succeeds exactly on the keys present in the dict. -/
theorem dictFind_isSome_iff {V : Type} (d : List (String × V)) (k : String) :
    (dictFind k d).isSome ↔ k ∈ d.map Prod.fst := by
  induction d with
  | nil => simp [dictFind]
  | cons a d ih =>
    by_cases ha : a.1 = k
    · simp [dictFind, ha]
    · have hb : ¬ (fun p : String × V => p.1 == k) a := by simp [ha]
      simp only [dictFind,
        List.find?_cons_of_neg (p := fun p : String × V => p.1 == k) (a := a) d hb,
        List.map_cons, List.mem_cons]
      have hka : ¬ k = a.1 := fun hk => ha hk.symm
      simp only [dictFind] at ih
      tauto

/-- Popping one key does not disturb the lookup of a different key. -/
theorem dictFind_eraseP_ne {V : Type} (d : List (String × V)) (k k' : String)
    (h : k' ≠ k) :
    dictFind k' (d.eraseP (fun p => p.1 == k)) = dictFind k' d := by
  induction d with
  | nil => rfl
  | cons a d ih =>
    by_cases ha : a.1 = k
    · have hp : (fun p : String × V => p.1 == k) a := by simp [ha]
      rw [List.eraseP_cons_of_pos (p := fun p : String × V => p.1 == k) (a := a) hp]
      have hb' : ¬ (fun p : String × V => p.1 == k') a := by
        simp only [beq_iff_eq, ha]
        exact Ne.symm h
      simp only [dictFind,
        List.find?_cons_of_neg (p := fun p : String × V => p.1 == k') (a := a) d hb']
    · have hp : ¬ (fun p : String × V => p.1 == k) a := by simp [ha]
      rw [List.eraseP_cons_of_neg (p := fun p : String × V => p.1 == k) (a := a) hp]
      by_cases ha' : a.1 = k'
      · have hb' : (fun p : String × V => p.1 == k') a := by simp [ha']
        simp only [dictFind,
          List.find?_cons_of_pos (p := fun p : String × V => p.1 == k') (a := a) _ hb']
      · have hb' : ¬ (fun p : String × V => p.1 == k') a := by simp [ha']
        simp only [dictFind,
          List.find?_cons_of_neg (p := fun p : String × V => p.1 == k') (a := a)
            (d.eraseP (fun p => p.1 == k)) hb',
          List.find?_cons_of_neg (p := fun p : String × V => p.1 == k') (a := a) d hb']
        simpa only [dictFind] using ih

/-- The key sequence after `eraseP` on a key is the key sequence with that key
erased. -/
theorem dictKeys_eraseP {V : Type} (d : List (String × V)) (k : String) :
    (d.eraseP (fun p => p.1 == k)).map Prod.fst = (d.map Prod.fst).erase k := by
  induction d with
  | nil => rfl
  | cons a d ih =>
    by_cases ha : a.1 = k
    · have hp : (fun p : String × V => p.1 == k) a := by simp [ha]
      rw [List.eraseP_cons_of_pos (p := fun p : String × V => p.1 == k) (a := a) hp,
        List.map_cons, ha, List.erase_cons_head]
    · have hp : ¬ (fun p : String × V => p.1 == k) a := by simp [ha]
      have hne : ¬ (a.1 == k) = true := by simp [ha]
      rw [List.eraseP_cons_of_neg (p := fun p : String × V => p.1 == k) (a := a) hp,
        List.map_cons, List.map_cons, List.erase_cons_tail (by simpa using hne), ih]

/-- On a dict with no duplicate keys, popping a key removes it entirely. -/
theorem dictFind_eraseP_self {V : Type} (d : List (String × V)) (k : String)
    (h : (d.map Prod.fst).Nodup) :
    dictFind k (d.eraseP (fun p => p.1 == k)) = none := by
  induction d with
  | nil => rfl
  | cons a d ih =>
    obtain ⟨hnotin, hnd⟩ := List.nodup_cons.mp h
    by_cases ha : a.1 = k
    · have hp : (fun p : String × V => p.1 == k) a := by simp [ha]
      rw [List.eraseP_cons_of_pos (p := fun p : String × V => p.1 == k) (a := a) hp]
      have hnone : ∀ p ∈ d, ¬ (fun q : String × V => q.1 == k) p := by
        intro p hp'
        simp only [beq_iff_eq]
        intro hpk
        have hmem : p.1 ∈ d.map Prod.fst := List.mem_map_of_mem Prod.fst hp'
        rw [hpk, ← ha] at hmem
        exact hnotin hmem
      simp [dictFind, List.find?_eq_none.mpr hnone]
    · have hp : ¬ (fun p : String × V => p.1 == k) a := by simp [ha]
      rw [List.eraseP_cons_of_neg (p := fun p : String × V => p.1 == k) (a := a) hp]
      simp only [dictFind,
        List.find?_cons_of_neg (p := fun p : String × V => p.1 == k) (a := a)
          (d.eraseP (fun p => p.1 == k)) hp]
      simpa only [dictFind] using ih hnd

/-- When the three removable keys are present, the deploy transformation succeeds and
returns the input with the entries for those keys erased, in order. -/
theorem modelDeploy_ok {V : Type} (d : List (String × V))
    (h1 : "optimizer" ∈ d.map Prod.fst) (h2 : "scheduler" ∈ d.map Prod.fst)
    (h3 : "iteration" ∈ d.map Prod.fst) :
    modelDeploy d = Except.ok
      (((d.eraseP (fun p => p.1 == "optimizer")).eraseP
          (fun p => p.1 == "scheduler")).eraseP (fun p => p.1 == "iteration")) := by
  have hs1 : (dictFind "optimizer" d).isSome = true := (dictFind_isSome_iff d _).mpr h1
  have hs2 : (dictFind "scheduler" (d.eraseP (fun p => p.1 == "optimizer"))).isSome
      = true := by
    rw [dictFind_eraseP_ne d _ _ (by decide)]
    exact (dictFind_isSome_iff d _).mpr h2
  have hs3 : (dictFind "iteration" ((d.eraseP (fun p => p.1 == "optimizer")).eraseP
      (fun p => p.1 == "scheduler"))).isSome = true := by
    rw [dictFind_eraseP_ne _ _ _ (by decide), dictFind_eraseP_ne _ _ _ (by decide)]
    exact (dictFind_isSome_iff d _).mpr h3
  simp [modelDeploy, dictPop, hs1, hs2, hs3]

/-- C10: for every checkpoint dict (unique keys, as Python dicts guarantee) containing
`optimizer`, `scheduler` and `iteration`, the deploy output is the input with exactly
those three keys removed: every other key keeps its value, and the three removed keys
are absent. -/
theorem model_deploy_frame {V : Type} (d : List (String × V))
    (hnd : (d.map Prod.fst).Nodup)
    (h1 : "optimizer" ∈ d.map Prod.fst) (h2 : "scheduler" ∈ d.map Prod.fst)
    (h3 : "iteration" ∈ d.map Prod.fst) :
    ∃ d₁, modelDeploy d = Except.ok d₁ ∧
      d₁.map Prod.fst =
        (((d.map Prod.fst).erase "optimizer").erase "scheduler").erase "iteration" ∧
      (∀ k, k ≠ "optimizer" → k ≠ "scheduler" → k ≠ "iteration" →
        dictFind k d₁ = dictFind k d) ∧
      dictFind "optimizer" d₁ = none ∧ dictFind "scheduler" d₁ = none ∧
      dictFind "iteration" d₁ = none := by
  refine ⟨_, modelDeploy_ok d h1 h2 h3, ?_, ?_, ?_, ?_, ?_⟩
  · rw [dictKeys_eraseP, dictKeys_eraseP, dictKeys_eraseP]
  · intro k hk1 hk2 hk3
    rw [dictFind_eraseP_ne _ _ _ hk3, dictFind_eraseP_ne _ _ _ hk2,
      dictFind_eraseP_ne _ _ _ hk1]
  · rw [dictFind_eraseP_ne _ _ _ (by decide), dictFind_eraseP_ne _ _ _ (by decide),
      dictFind_eraseP_self d _ hnd]
  · rw [dictFind_eraseP_ne _ _ _ (by decide), dictFind_eraseP_self _ _ ?_]
    rw [dictKeys_eraseP]
    exact hnd.erase _
  · rw [dictFind_eraseP_self _ _ ?_]
    rw [dictKeys_eraseP, dictKeys_eraseP]
    exact (hnd.erase _).erase _

/-- A concrete five-entry checkpoint dict (an extra key beyond the four standard
ones). -/
def exampleCheckpointExtra : List (String × ℕ) :=
  [("model", 10), ("extra", 20), ("optimizer", 30), ("scheduler", 40), ("iteration", 50)]

/-- Witness for `model_deploy_frame`: on the five-entry dict the hypotheses hold; the
output keeps `model` and the extra key with their values and drops the three others, so
it is strictly larger than `{model}`. -/
theorem model_deploy_frame_witness :
    (exampleCheckpointExtra.map Prod.fst).Nodup ∧
    "optimizer" ∈ exampleCheckpointExtra.map Prod.fst ∧
    "scheduler" ∈ exampleCheckpointExtra.map Prod.fst ∧
    "iteration" ∈ exampleCheckpointExtra.map Prod.fst ∧
    modelDeploy exampleCheckpointExtra = Except.ok [("model", 10), ("extra", 20)] ∧
    dictFind "extra" [(("model" : String), (10 : ℕ)), ("extra", 20)] =
      dictFind "extra" exampleCheckpointExtra := by
  obtain ⟨d₁, hd, -, hframe, -, -, -⟩ :=
    model_deploy_frame exampleCheckpointExtra (by decide) (by decide) (by decide)
      (by decide)
  have hr : modelDeploy exampleCheckpointExtra =
      Except.ok [(("model" : String), (10 : ℕ)), ("extra", 20)] := rfl
  have hd₁ : d₁ = [(("model" : String), (10 : ℕ)), ("extra", 20)] := by
    have := hd.symm.trans hr
    exact Except.ok.inj this
  refine ⟨by decide, by decide, by decide, by decide, hr, ?_⟩
  rw [← hd₁]
  exact hframe "extra" (by decide) (by decide) (by decide)

/-- C6: a checkpoint dict whose keys are exactly `{model, optimizer, scheduler,
iteration}` (in any order) is transformed into the dict containing exactly the key
`model`, with its value unchanged; and on any dict missing one of the three removable
keys the transformation raises an error instead of succeeding. -/
theorem model_deploy_exact_keys {V : Type} (d : List (String × V))
    (h : (d.map Prod.fst).Perm ["model", "optimizer", "scheduler", "iteration"]) :
    (∃ v, dictFind "model" d = some v ∧ modelDeploy d = Except.ok [("model", v)]) ∧
    (∀ d₂ : List (String × V),
      ("optimizer" ∉ d₂.map Prod.fst ∨ "scheduler" ∉ d₂.map Prod.fst ∨
        "iteration" ∉ d₂.map Prod.fst) →
      ∃ e, modelDeploy d₂ = Except.error e) := by
  constructor
  · have h1 : "optimizer" ∈ d.map Prod.fst := h.mem_iff.mpr (by decide)
    have h2 : "scheduler" ∈ d.map Prod.fst := h.mem_iff.mpr (by decide)
    have h3 : "iteration" ∈ d.map Prod.fst := h.mem_iff.mpr (by decide)
    have hok := modelDeploy_ok d h1 h2 h3
    have hkeys : ((((d.eraseP (fun q => q.1 == "optimizer")).eraseP
        (fun q => q.1 == "scheduler")).eraseP
          (fun q => q.1 == "iteration")).map Prod.fst) = ["model"] := by
      rw [dictKeys_eraseP, dictKeys_eraseP, dictKeys_eraseP, ← List.perm_singleton]
      have hch := ((h.erase "optimizer").erase "scheduler").erase "iteration"
      simpa using hch
    obtain ⟨v, hEeq⟩ : ∃ v, (((d.eraseP (fun q => q.1 == "optimizer")).eraseP
        (fun q => q.1 == "scheduler")).eraseP (fun q => q.1 == "iteration"))
        = [("model", v)] := by
      generalize (((d.eraseP (fun q => q.1 == "optimizer")).eraseP
        (fun q => q.1 == "scheduler")).eraseP (fun q => q.1 == "iteration")) = E
        at hkeys ⊢
      cases E with
      | nil => simp at hkeys
      | cons p tl =>
        cases tl with
        | nil =>
          simp only [List.map_cons, List.map_nil, List.cons.injEq, and_true] at hkeys
          exact ⟨p.2, by rw [show p = ("model", p.2) from by rw [← hkeys]]⟩
        | cons q tl2 => simp at hkeys
    refine ⟨v, ?_, ?_⟩
    · have hfind : dictFind "model" (((d.eraseP (fun q => q.1 == "optimizer")).eraseP
          (fun q => q.1 == "scheduler")).eraseP (fun q => q.1 == "iteration"))
          = some v := by
        rw [hEeq]
        rfl
      rw [dictFind_eraseP_ne _ _ _ (by decide), dictFind_eraseP_ne _ _ _ (by decide),
        dictFind_eraseP_ne _ _ _ (by decide)] at hfind
      exact hfind
    · rw [hok, hEeq]
  · intro d₂ hcase
    have herr1 : "optimizer" ∉ d₂.map Prod.fst →
        ∃ e, modelDeploy d₂ = Except.error e := by
      intro hc
      have hnone : dictFind "optimizer" d₂ = none :=
        Option.not_isSome_iff_eq_none.mp
          (fun hs => hc ((dictFind_isSome_iff _ _).mp hs))
      exact ⟨"KeyError: " ++ "optimizer", by simp [modelDeploy, dictPop, hnone]⟩
    rcases hcase with hc | hc | hc
    · exact herr1 hc
    · by_cases ho : "optimizer" ∈ d₂.map Prod.fst
      · have hsome : (dictFind "optimizer" d₂).isSome = true :=
          (dictFind_isSome_iff _ _).mpr ho
        have hnone : dictFind "scheduler"
            (d₂.eraseP (fun p => p.1 == "optimizer")) = none := by
          rw [dictFind_eraseP_ne _ _ _ (by decide)]
          exact Option.not_isSome_iff_eq_none.mp
            (fun hs => hc ((dictFind_isSome_iff _ _).mp hs))
        exact ⟨"KeyError: " ++ "scheduler",
          by simp [modelDeploy, dictPop, hsome, hnone]⟩
      · exact herr1 ho
    · by_cases ho : "optimizer" ∈ d₂.map Prod.fst
      · have hsome : (dictFind "optimizer" d₂).isSome = true :=
          (dictFind_isSome_iff _ _).mpr ho
        by_cases hs2 : "scheduler" ∈ d₂.map Prod.fst
        · have hsome2 : (dictFind "scheduler"
              (d₂.eraseP (fun p => p.1 == "optimizer"))).isSome = true := by
            rw [dictFind_eraseP_ne _ _ _ (by decide)]
            exact (dictFind_isSome_iff _ _).mpr hs2
          have hnone : dictFind "iteration"
              ((d₂.eraseP (fun p => p.1 == "optimizer")).eraseP
                (fun p => p.1 == "scheduler")) = none := by
            rw [dictFind_eraseP_ne _ _ _ (by decide),
              dictFind_eraseP_ne _ _ _ (by decide)]
            exact Option.not_isSome_iff_eq_none.mp
              (fun hs => hc ((dictFind_isSome_iff _ _).mp hs))
          exact ⟨"KeyError: " ++ "iteration",
            by simp [modelDeploy, dictPop, hsome, hsome2, hnone]⟩
        · have hnone : dictFind "scheduler"
              (d₂.eraseP (fun p => p.1 == "optimizer")) = none := by
            rw [dictFind_eraseP_ne _ _ _ (by decide)]
            exact Option.not_isSome_iff_eq_none.mp
              (fun hs => hs2 ((dictFind_isSome_iff _ _).mp hs))
          exact ⟨"KeyError: " ++ "scheduler",
            by simp [modelDeploy, dictPop, hsome, hnone]⟩
      · exact herr1 ho

/-- A concrete checkpoint dict with exactly the four standard keys, in a scrambled
order. -/
def exampleCheckpoint : List (String × ℕ) :=
  [("iteration", 3), ("model", 7), ("optimizer", 1), ("scheduler", 2)]

/-- Witness for `model_deploy_exact_keys`: the four-key dict (scrambled order) is
reduced to exactly `{model: 7}`, and the same dict with `scheduler` removed makes the
transformation fail. -/
theorem model_deploy_exact_keys_witness :
    (exampleCheckpoint.map Prod.fst).Perm
      ["model", "optimizer", "scheduler", "iteration"] ∧
    modelDeploy exampleCheckpoint = Except.ok [("model", 7)] ∧
    ∃ e, modelDeploy [(("iteration" : String), (3 : ℕ)), ("model", 7), ("optimizer", 1)]
      = Except.error e := by
  refine ⟨by decide, ?_, ?_⟩
  · obtain ⟨v, hv, hd⟩ := (model_deploy_exact_keys exampleCheckpoint (by decide)).1
    have h0 : dictFind "model" exampleCheckpoint = some 7 := rfl
    rw [hv] at h0
    rw [Option.some.inj h0] at hd
    exact hd
  · exact (model_deploy_exact_keys exampleCheckpoint (by decide)).2
      [("iteration", 3), ("model", 7), ("optimizer", 1)] (Or.inr (Or.inl (by decide)))
